import Mathlib

/-!
Shallow embedding of the openmc_performance harness (pyperformance package):
the revision pipeline and scheduler of `compile.py`, the benchmark execution
engine and compatibility fingerprint of `run.py`, venv creation of `_venv.py`,
and the result records of `_benchmarkresult.py`.  External collaborators
(subprocesses, the filesystem, the HTTP endpoint, the cryptographic digest,
the statistics library) are modelled as explicit inputs.
-/

namespace OpenmcPerf

/-! ### Exit-code constants (compile.py lines 28-31) -/

def EXIT_ALREADY_EXIST : Int := 10

def EXIT_COMPILE_ERROR : Int := 11

def EXIT_VENV_ERROR : Int := 11

def EXIT_BENCH_ERROR : Int := 12

/-! ### Output/upload artifact paths (compile.py parse_config lines 675-677 and
BenchmarkRevision.init_revision lines 397-406, upload_filename lines 364-365).
`joinPath` models `os.path.join` for a relative component. -/

def joinPath (d b : String) : String := d ++ "/" ++ b

def uploaded_json_dir (json_dir : String) : String := joinPath json_dir "uploaded"

def json_patch_dir (json_dir : String) : String := joinPath json_dir "patch"

def output_filename (json_dir base : String) (hasPatch : Bool) : String :=
  if hasPatch then joinPath (json_patch_dir json_dir) base
  else joinPath json_dir base

def upload_filename (json_dir base : String) : String :=
  joinPath (uploaded_json_dir json_dir) base

/-! ### Revision-pipeline state machine (compile.py BenchmarkRevision).
The filesystem is reduced to the two artifact locations the pipeline reads
and writes; collaborator behaviour (compile result, subprocess exit codes,
whether the run sub-invocation wrote the output file, the HTTP transport
outcome) is an explicit `World`. -/

structure FS where
  output : Bool
  uploaded : Bool
deriving DecidableEq

structure Conf where
  upload : Bool
  clean_venv : Bool
deriving DecidableEq

inductive Transport where
  | success
  | httpError
deriving DecidableEq

structure World where
  compileOk : Bool
  venvExit : Int
  benchExit : Int
  outputWritten : Bool
  transport : Transport
  cleanExit : Int
deriving DecidableEq

structure UploadSt where
  uploaded : Bool
  fs : FS
deriving DecidableEq

inductive UploadRes where
  | raisedAlreadyUploaded
  | fatal (code : Int)
  | notUploaded
  | moved
deriving DecidableEq

structure UploadOut where
  res : UploadRes
  st : UploadSt
  sent : Bool
deriving DecidableEq

/-- Model of `BenchmarkRevision.upload` (compile.py lines 485-530): guard on the
`uploaded` flag, on `filename == upload_filename`, and on an existing uploaded
file, then POST; on `HTTPError` log and return with nothing moved; on a
successful response `os.rename` the artifact to the uploaded path.  `sent`
records whether the POST was performed. -/
def upload (filename uploadFilename : String) (st : UploadSt) (t : Transport) : UploadOut :=
  if st.uploaded then ⟨.raisedAlreadyUploaded, st, false⟩
  else if filename == uploadFilename then ⟨.fatal 1, st, false⟩
  else if st.fs.uploaded then ⟨.fatal 1, st, false⟩
  else
    match t with
    | .httpError => ⟨.notUploaded, st, true⟩
    | .success =>
        if st.fs.output then ⟨.moved, ⟨true, ⟨false, true⟩⟩, true⟩
        else ⟨.fatal 1, st, true⟩

structure Outcome where
  exitCode : Int
  ranCompile : Bool
  ranVenv : Bool
  ranBench : Bool
  uploadCalled : Bool
  uploadSent : Bool
  uploaded : Bool
  logDeleted : Bool
  fs : FS
deriving DecidableEq

/-- Model of the tail of `BenchmarkRevision.main` (compile.py lines 614-618):
`if self.conf.clean_venv: failed = self.clean_venv()` reassigns `failed`, then
a truthy `failed` exits with `EXIT_BENCH_ERROR` and otherwise the process ends
with exit status 0. -/
def pipelineFinish (conf : Conf) (w : World)
    (uploadCalled uploadSent uploadedFlag : Bool) (fs : FS) (failed : Bool) : Outcome :=
  let failed2 := if conf.clean_venv then w.cleanExit != 0 else failed
  { exitCode := if failed2 then EXIT_BENCH_ERROR else 0,
    ranCompile := true, ranVenv := true, ranBench := true,
    uploadCalled := uploadCalled, uploadSent := uploadSent, uploaded := uploadedFlag,
    logDeleted := false, fs := fs }

/-- Model of `BenchmarkRevision.main` (compile.py lines 580-618) together with
`prepare` (532-561), `compile_bench` (563-578) and `run_benchmark` (447-476).
`hasLog` states whether `setup_log` created a log file; `logDeleted` records
the `os.unlink(self.log_filename)` of the already-done path. A missing output
file at the `open(self.filename)` of the upload stage, like any uncaught
exception, terminates the interpreter with exit status 1. -/
def pipelineMain (json_dir base : String) (conf : Conf)
    (hasPatch hasLog : Bool) (fs : FS) (w : World) : Outcome :=
  -- prepare: existing output artifact, or (when uploading) existing uploaded
  -- artifact, exits EXIT_ALREADY_EXIST after unlinking the fresh log file
  if fs.output || (conf.upload && fs.uploaded) then
    { exitCode := EXIT_ALREADY_EXIST, ranCompile := false, ranVenv := false,
      ranBench := false, uploadCalled := false, uploadSent := false,
      uploaded := false, logDeleted := hasLog, fs := fs }
  else
    -- prepare: a patched run disables uploading
    let conf1 : Conf := if hasPatch && conf.upload then { conf with upload := false } else conf
    -- compile_bench: compile_install failure exits EXIT_COMPILE_ERROR
    if !w.compileOk then
      { exitCode := EXIT_COMPILE_ERROR, ranCompile := true, ranVenv := false,
        ranBench := false, uploadCalled := false, uploadSent := false,
        uploaded := false, logDeleted := false, fs := fs }
    -- compile_bench / create_venv: non-zero venv recreate exits EXIT_VENV_ERROR
    else if w.venvExit != 0 then
      { exitCode := EXIT_VENV_ERROR, ranCompile := true, ranVenv := true,
        ranBench := false, uploadCalled := false, uploadSent := false,
        uploaded := false, logDeleted := false, fs := fs }
    else
      -- run_benchmark: removes any stale output file, runs the sub-invocation
      let fs1 : FS := { fs with output := w.outputWritten }
      let failed := w.benchExit != 0
      if !failed && conf1.upload then
        if fs1.output then
          let u := upload (output_filename json_dir base hasPatch)
                          (upload_filename json_dir base) ⟨false, fs1⟩ w.transport
          match u.res with
          | .raisedAlreadyUploaded =>
              { exitCode := 1, ranCompile := true, ranVenv := true, ranBench := true,
                uploadCalled := true, uploadSent := u.sent, uploaded := u.st.uploaded,
                logDeleted := false, fs := u.st.fs }
          | .fatal c =>
              { exitCode := c, ranCompile := true, ranVenv := true, ranBench := true,
                uploadCalled := true, uploadSent := u.sent, uploaded := u.st.uploaded,
                logDeleted := false, fs := u.st.fs }
          | _ => pipelineFinish conf1 w true u.sent u.st.uploaded u.st.fs failed
        else
          { exitCode := 1, ranCompile := true, ranVenv := true, ranBench := true,
            uploadCalled := false, uploadSent := false, uploaded := false,
            logDeleted := false, fs := fs1 }
      else pipelineFinish conf1 w false false false fs1 failed

/-! ### Multi-revision scheduler (compile.py BenchmarkAll, lines 757-865) -/

structure SchedState where
  skipped : List String
  outputs : List (String × Bool)
  failed : List String
  timings : List Nat
  update : Bool
deriving DecidableEq

/-- Model of `BenchmarkAll.benchmark` (compile.py lines 771-805): classify the
sub-pipeline's exit code into skipped / tested (with success label and timing)
/ failed, disabling further repository updates after any exit code at least
`EXIT_COMPILE_ERROR`. -/
def benchmarkOne (st : SchedState) (key : String) (exitcode : Int) (dt : Nat) : SchedState :=
  if exitcode == EXIT_ALREADY_EXIST then
    { st with skipped := st.skipped ++ [key] }
  else
    let st1 := if EXIT_COMPILE_ERROR ≤ exitcode && st.update then
                 { st with update := false } else st
    if exitcode == 0 || exitcode == EXIT_BENCH_ERROR then
      { st1 with outputs := st1.outputs ++ [(key, exitcode == 0)],
                 timings := st1.timings ++ [dt] }
    else
      { st1 with failed := st1.failed ++ [key] }

def initSched (update : Bool) : SchedState :=
  { skipped := [], outputs := [], failed := [], timings := [], update := update }

/-- Model of the queue loop of `BenchmarkAll.main` (compile.py lines 852-857):
each item is a key together with the sub-pipeline exit code and duration. -/
def benchmarkAllLoop (items : List (String × Int × Nat)) (st : SchedState) : SchedState :=
  items.foldl (fun s it => benchmarkOne s it.1 it.2.1 it.2.2) st

/-- Model of the final `if self.failed: sys.exit(1)` of `BenchmarkAll.main`
(compile.py lines 863-864); falling off the end exits with status 0. -/
def benchmarkAllExit (st : SchedState) : Int :=
  if st.failed.isEmpty then 0 else 1

/-! ### Benchmark execution engine (run.py run_benchmarks, lines 55-141).
A benchmark unit carries the outcome its collaborators would produce: whether
installing its requirement lock file into the common venv succeeds, and how
`bench.run` ends (result, `TimeoutExpired`, `RuntimeError`, other exception). -/

inductive BenchOutcome where
  | ok
  | timeout (msg : String)
  | runtimeError (msg : String)
  | otherError (msg : String)
deriving DecidableEq

structure Bench where
  name : String
  installOk : Bool
  outcome : BenchOutcome
deriving DecidableEq

/-- Model of the first loop of `run_benchmarks` (run.py lines 77-91): the
`benchmarks` dict maps each benchmark to its venv (`None` when installing its
requirements failed) — entries are pairs keyed by the benchmark itself. -/
def installPhase (toRun : List Bench) : List (Bench × Bool) :=
  toRun.map (fun b => (b, b.installOk))

/-- Dict lookup `benchmarks.get(bench)`: with duplicate keys the last binding
wins, hence `find?` over the reversed entry list. -/
def lookupInstall (m : List (Bench × Bool)) (b : Bench) : Option Bool :=
  (m.reverse.find? (fun p => p.1 == b)).map (fun p => p.2)

/-- Model of the body of the second loop of `run_benchmarks` (run.py lines
100-137): a missing venv appends an install error and continues; otherwise the
run result is appended to the suite, and each of the three exception kinds is
appended to the error list. -/
def runStep (m : List (Bench × Bool)) (acc : List String × List (String × String))
    (b : Bench) : List String × List (String × String) :=
  match lookupInstall m b with
  | none => acc
  | some false => (acc.1, acc.2 ++ [(b.name, "Install requirements error")])
  | some true =>
      match b.outcome with
      | .ok => (acc.1 ++ [b.name], acc.2)
      | .timeout msg => (acc.1, acc.2 ++ [(b.name, msg)])
      | .runtimeError msg => (acc.1, acc.2 ++ [(b.name, msg)])
      | .otherError msg => (acc.1, acc.2 ++ [(b.name, msg)])

/-- Model of `run_benchmarks` (run.py lines 55-141): installing the global
requirement set into the common venv aborts the whole engine on failure
(`sys.exit(1)`, modelled as `none`); otherwise both loops run over the sorted
benchmark list and `(suite, errors)` is returned.  The suite is abstracted to
the names of the benchmarks whose run produced a result. -/
def run_benchmarks (globalReqsOk : Bool) (toRun : List Bench) :
    Option (List String × List (String × String)) :=
  if globalReqsOk then
    some (toRun.foldl (runStep (installPhase toRun)) ([], []))
  else none

/-- Expected suite contents: one entry per benchmark whose requirements
installed and whose run returned a result, in list order. -/
def suiteOf (l : List Bench) : List String :=
  l.filterMap (fun b =>
    if b.installOk then
      match b.outcome with
      | .ok => some b.name
      | _ => none
    else none)

/-- Expected error-list contents: an install-error entry for each benchmark
whose requirements failed to install, and the exception message for each
benchmark whose run raised. -/
def errorsOf (l : List Bench) : List (String × String) :=
  l.filterMap (fun b =>
    if b.installOk then
      match b.outcome with
      | .ok => none
      | .timeout msg => some (b.name, msg)
      | .runtimeError msg => some (b.name, msg)
      | .otherError msg => some (b.name, msg)
    else some (b.name, "Install requirements error"))

/-! ### Compatibility fingerprint (run.py get_compatibility_id, lines 146-167).
Python's `sorted` on strings is modelled by insertion sort over the linear
order on `String`; the cryptographic digest (`hashlib.sha256(...).hexdigest()`)
is an external collaborator, passed in as `hexdigest`, and the successive
`h.update` calls hash the concatenation of the version string with the joined
requirement lines. -/

def sortedLines (l : List String) : List String :=
  List.insertionSort (fun a b => a ≤ b) l

def digest_input (version : String) (reqs : List String) : String :=
  version ++ String.intercalate "\n" reqs

/-- Model of the Python slice `compat_id[:12]`. -/
def strSlice (s : String) (n : Nat) : String := String.mk (s.data.take n)

/-- Result of a Python call that may raise an unhandled exception:
`nameError` models an uncaught `NameError` escaping the function. -/
inductive PyResult (α : Type) where
  | ok (v : α)
  | nameError
deriving DecidableEq

/-- Model of `get_compatibility_id` (run.py lines 146-167) as written.
`lockfile` is the benchmark's truthy `requirements_lockfile` content when one
is supplied (`none` covers both `bench=None` and a falsy lockfile path, where
the `lockfile and os.path.exists(lockfile)` conjunction short-circuits).
run.py has no `import os`, so with a truthy lockfile the guard
`os.path.exists(lockfile)` at line 151 raises `NameError` before the lock
file is ever read or its lines appended; only the no-lockfile path returns,
with the 12-character prefix of the digest of the harness version string
concatenated with the sorted global requirement lines. -/
def get_compatibility_id (hexdigest : String → String) (version : String)
    (globalLines : List String) (lockfile : Option (List String)) :
    PyResult String :=
  match lockfile with
  | none =>
      .ok (strSlice (hexdigest (digest_input version (sortedLines globalLines))) 12)
  | some _ => .nameError

/-! ### Venv creation (_venv.py create_venv, lines 99-116) -/

structure VenvCreationFailedError where
  exitcode : Int
  already_existed : Bool
deriving DecidableEq

inductive VenvRes where
  | raised (e : VenvCreationFailedError)
  | ok
deriving DecidableEq

structure CreateVenvResult where
  res : VenvRes
  args : List String
  rootDeleted : Bool
  rootExists : Bool
deriving DecidableEq

/-- Model of `_venv.create_venv`: record whether the root pre-existed, invoke
the environment-creation primitive (its exit code `ec`, and whether it left
anything at the root, are collaborator inputs), and on a non-zero exit delete
a freshly-created root (`cleanonfail` defaults to `true` and every call site
in the repository uses the default) before raising
`VenvCreationFailedError(root, ec, already_existed)`. -/
def create_venv (root : String) (withpip cleanonfail : Bool)
    (rootExisted0 rootAfterPrimitive : Bool) (ec : Int) : CreateVenvResult :=
  let already_existed := rootExisted0
  let args := if withpip then ["-m", "venv", root]
              else ["-m", "venv", "--without-pip", root]
  if ec != 0 then
    if cleanonfail && !already_existed then
      { res := .raised ⟨ec, already_existed⟩, args := args,
        rootDeleted := true, rootExists := false }
    else
      { res := .raised ⟨ec, already_existed⟩, args := args,
        rootDeleted := false, rootExists := rootAfterPrimitive }
  else
    { res := .ok, args := args, rootDeleted := false, rootExists := rootAfterPrimitive }

/-! ### Benchmark results (_benchmarkresult.py).
Numeric values have an abstract type `α` and dates an abstract type `D`; the
statistics collaborator (`statistics.mean`, `statistics.stdev`, `min`, `max`
over the raw trial list) is a bundle of functions. -/

structure Stats (α : Type) where
  meanFn : List α → α
  stdevFn : List α → α
  minFn : List α → α
  maxFn : List α → α

structure ExecInfo (D : Type) where
  commitid : String
  revision_date : D
  version : String
  branch : String
  project : String
  environment : String
deriving DecidableEq

/-- Persisted per-benchmark record (the `_data` dict / one element of the JSON
array written by `cmd_run`).  Fields the constructor reads eagerly are
`Option`s, `none` meaning the key is absent (a `KeyError` in Python);
`results_value`, `std_dev`, `min` and `max` are only read lazily by the
accessor properties and the claims always supply them. -/
structure JsonRecord (α D : Type) where
  benchmark : Option String
  results_value : α
  std_dev : Option α
  min : α
  max : α
  result_date : Option D
  revision_date : Option D
  commitid : Option String
  executable : Option String
  branch : Option String
  project : Option String
  environment : Option String
deriving DecidableEq

/-- The two shapes a `BenchmarkResult` can have: built from a raw trial list
(`_results` set, metadata filled in later by `add_executable_info`) or rebuilt
from a persisted record (`_results is None`). -/
inductive BenchmarkResult (α D : Type) where
  | ofResults (name : Option String) (results : List α) (result_date : D)
      (meta : Option (ExecInfo D))
  | ofJsonData (r : JsonRecord α D)
deriving DecidableEq

/-- Model of the `json_data` branch of `BenchmarkResult.__init__`
(_benchmarkresult.py lines 26-44): it reads the keys `benchmark`,
`result_date`, `revision_date`, `commitid`, `executable`, `branch`, `project`
and `environment` unconditionally, so a record missing any of them raises
`KeyError` (modelled as `none`). -/
def fromJson {α D : Type} (r : JsonRecord α D) : Option (BenchmarkResult α D) :=
  match r.benchmark, r.result_date, r.revision_date, r.commitid,
        r.executable, r.branch, r.project, r.environment with
  | some _, some _, some _, some _, some _, some _, some _, some _ =>
      some (.ofJsonData r)
  | _, _, _, _, _, _, _, _ => none

/-- Model of `BenchmarkResult.__init__` (lines 6-44): `if results:` is Python
truthiness, so `None` and the empty list both fall through to the
`json_data` branch; `now` is `datetime.datetime.now(datetime.UTC)`. -/
def mkBenchmarkResult {α D : Type} (name : Option String) (results : Option (List α))
    (json_data : Option (JsonRecord α D)) (now : D) : Option (BenchmarkResult α D) :=
  match results with
  | some rs =>
      if rs.isEmpty then json_data.bind fromJson
      else some (.ofResults name rs now none)
  | none => json_data.bind fromJson

/-- Model of `BenchmarkResult.add_executable_info` (lines 109-125). -/
def BenchmarkResult.add_executable_info {α D : Type} (br : BenchmarkResult α D)
    (info : ExecInfo D) : BenchmarkResult α D :=
  match br with
  | .ofResults n rs d _ => .ofResults n rs d (some info)
  | .ofJsonData r =>
      .ofJsonData { r with revision_date := some info.revision_date,
                           commitid := some info.commitid,
                           executable := some info.version,
                           branch := some info.branch,
                           project := some info.project,
                           environment := some info.environment }

def BenchmarkResult.resultsOf {α D : Type} : BenchmarkResult α D → Option (List α)
  | .ofResults _ rs _ _ => some rs
  | .ofJsonData _ => none

/-- Python truthiness of `self._results` (`None` and `[]` are both falsy). -/
def truthyResults {α : Type} (o : Option (List α)) : Bool :=
  match o with
  | some rs => !rs.isEmpty
  | none => false

/-- The `_data` dict of a result (lines 12-19 for the raw branch, where the
constructor only runs with a non-empty trial list, so the stored
`results_value`, `std_dev`, `min` and `max` are the computed statistics; the
metadata keys only exist once `add_executable_info` ran). -/
def BenchmarkResult.data {α D : Type} (S : Stats α) :
    BenchmarkResult α D → JsonRecord α D
  | .ofResults n rs d meta =>
      { benchmark := n,
        results_value := S.meanFn rs,
        std_dev := if 1 < rs.length then some (S.stdevFn rs) else none,
        min := S.minFn rs,
        max := S.maxFn rs,
        result_date := some d,
        revision_date := meta.map (fun i => i.revision_date),
        commitid := meta.map (fun i => i.commitid),
        executable := meta.map (fun i => i.version),
        branch := meta.map (fun i => i.branch),
        project := meta.map (fun i => i.project),
        environment := meta.map (fun i => i.environment) }
  | .ofJsonData r => r

/-- Property `mean` (lines 74-76): recomputed from the raw trials when
`self.results` is truthy, else read back from the stored record. -/
def BenchmarkResult.mean {α D : Type} (S : Stats α) (br : BenchmarkResult α D) : α :=
  if truthyResults br.resultsOf then S.meanFn (br.resultsOf.getD [])
  else (br.data S).results_value

/-- Property `min` (lines 66-68). -/
def BenchmarkResult.min {α D : Type} (S : Stats α) (br : BenchmarkResult α D) : α :=
  if truthyResults br.resultsOf then S.minFn (br.resultsOf.getD [])
  else (br.data S).min

/-- Property `max` (lines 70-72). -/
def BenchmarkResult.max {α D : Type} (S : Stats α) (br : BenchmarkResult α D) : α :=
  if truthyResults br.resultsOf then S.maxFn (br.resultsOf.getD [])
  else (br.data S).max

/-- Property `std_dev` (lines 78-83): for raw trials, the sample standard
deviation when `n_trials > 1` and `None` otherwise; for a reconstructed
record, the stored value. -/
def BenchmarkResult.std_dev {α D : Type} (S : Stats α) (br : BenchmarkResult α D) :
    Option α :=
  if truthyResults br.resultsOf then
    if 1 < (br.resultsOf.getD []).length then some (S.stdevFn (br.resultsOf.getD []))
    else none
  else (br.data S).std_dev

/-- Minimal persisted record of claim C9: the six minimal keys present, the
six optional metadata keys absent. -/
def minimalRecord : JsonRecord Int Int :=
  { benchmark := some "bm", results_value := 5, std_dev := none,
    min := 1, max := 9, result_date := some 0,
    revision_date := none, commitid := none, executable := none,
    branch := none, project := none, environment := none }

/-- Concrete world where every collaborator succeeds, for evaluating the
pipeline at specific inputs. -/
def wSucc : World :=
  { compileOk := true, venvExit := 0, benchExit := 0, outputWritten := true,
    transport := .success, cleanExit := 0 }

/-- Concrete statistics bundle over `Int`, for evaluating result records. -/
def intStats : Stats Int :=
  { meanFn := fun l => l.sum, stdevFn := fun l => l.length,
    minFn := fun l => l.headD 0, maxFn := fun l => l.getLastD 0 }

/-- Concrete executable metadata, for evaluating result records. -/
def wInfo : ExecInfo Int :=
  { commitid := "c0ffee", revision_date := 4, version := "0.13.3",
    branch := "develop", project := "OpenMC", environment := "host" }

/-- Persisted record with every key present, for evaluating reconstruction. -/
def fullRecord : JsonRecord Int Int :=
  { benchmark := some "bm", results_value := 5, std_dev := some 2,
    min := 1, max := 9, result_date := some 0,
    revision_date := some 4, commitid := some "c0ffee",
    executable := some "0.13.3", branch := some "develop",
    project := some "OpenMC", environment := some "host" }

/-! ## Helper lemmas -/

/-- The working artifact path and the uploaded artifact path are built in
different directories (`json_dir` or `json_dir/patch` versus
`json_dir/uploaded`), so they always differ. -/
theorem output_filename_ne_upload_filename (d b : String) (p : Bool) :
    output_filename d b p ≠ upload_filename d b := by
  intro h
  have hl := congrArg String.length h
  have h1 : String.length "/" = 1 := rfl
  have h2 : String.length "uploaded" = 8 := rfl
  have h3 : String.length "patch" = 5 := rfl
  cases p <;>
    simp only [output_filename, upload_filename, joinPath, uploaded_json_dir,
      json_patch_dir, String.length_append, if_true, if_false, Bool.false_eq_true,
      ite_true, ite_false, h1, h2, h3] at hl <;>
    omega

/-- Boolean form of the path inequality, for the `==` guard in `upload`. -/
theorem output_beq_upload_false (d b : String) (p : Bool) :
    (output_filename d b p == upload_filename d b) = false := by
  simpa [beq_eq_false_iff_ne] using output_filename_ne_upload_filename d b p

/-! ## C7: venv creation failure cleanup -/

/-- C7: when `create_venv` gets a non-zero exit from the environment-creation
primitive (with the default `cleanonfail`), it raises
`VenvCreationFailedError` carrying that exit code and the pre-existence flag;
the root is deleted recursively exactly when it did not pre-exist. -/
theorem create_venv_cleanup (root : String) (withpip rootExisted0 rootAfter : Bool)
    (ec : Int) (hec : ec ≠ 0) :
    (create_venv root withpip true rootExisted0 rootAfter ec).res
        = .raised ⟨ec, rootExisted0⟩ ∧
    (rootExisted0 = false →
       (create_venv root withpip true rootExisted0 rootAfter ec).rootDeleted = true ∧
       (create_venv root withpip true rootExisted0 rootAfter ec).rootExists = false) ∧
    (rootExisted0 = true →
       (create_venv root withpip true rootExisted0 rootAfter ec).rootDeleted = false ∧
       (create_venv root withpip true rootExisted0 rootAfter ec).rootExists = rootAfter) := by
  have h : (ec != 0) = true := by simpa using hec
  cases rootExisted0 <;> simp [create_venv, h]

/-- Witness for C7 at a concrete input. -/
theorem create_venv_cleanup_witness :
    (create_venv "r" true true false true 7).res = .raised ⟨7, false⟩ ∧
    (create_venv "r" true true false true 7).rootDeleted = true := by
  have h := create_venv_cleanup "r" true false true 7 (by decide)
  exact ⟨h.1, (h.2.1 rfl).1⟩

/-! ## C3: scheduler exit-code classification -/

/-- C3: the scheduler records exit 10 as skipped; exit 0 and exit 12 as tested
(labelled success exactly for 0) with the duration accumulated; any other exit
code as failed; and after the queue completes its own exit status is non-zero
iff the failed list is non-empty. -/
theorem scheduler_classification :
    (∀ (st : SchedState) (k : String) (dt : Nat),
       (benchmarkOne st k EXIT_ALREADY_EXIST dt).skipped = st.skipped ++ [k] ∧
       (benchmarkOne st k EXIT_ALREADY_EXIST dt).outputs = st.outputs ∧
       (benchmarkOne st k EXIT_ALREADY_EXIST dt).failed = st.failed ∧
       (benchmarkOne st k EXIT_ALREADY_EXIST dt).timings = st.timings) ∧
    (∀ (st : SchedState) (k : String) (dt : Nat),
       (benchmarkOne st k 0 dt).outputs = st.outputs ++ [(k, true)] ∧
       (benchmarkOne st k 0 dt).timings = st.timings ++ [dt] ∧
       (benchmarkOne st k 0 dt).skipped = st.skipped ∧
       (benchmarkOne st k 0 dt).failed = st.failed) ∧
    (∀ (st : SchedState) (k : String) (dt : Nat),
       (benchmarkOne st k EXIT_BENCH_ERROR dt).outputs = st.outputs ++ [(k, false)] ∧
       (benchmarkOne st k EXIT_BENCH_ERROR dt).timings = st.timings ++ [dt] ∧
       (benchmarkOne st k EXIT_BENCH_ERROR dt).skipped = st.skipped ∧
       (benchmarkOne st k EXIT_BENCH_ERROR dt).failed = st.failed) ∧
    (∀ (st : SchedState) (k : String) (ec : Int) (dt : Nat),
       ec ≠ EXIT_ALREADY_EXIST → ec ≠ 0 → ec ≠ EXIT_BENCH_ERROR →
       (benchmarkOne st k ec dt).failed = st.failed ++ [k] ∧
       (benchmarkOne st k ec dt).outputs = st.outputs ∧
       (benchmarkOne st k ec dt).skipped = st.skipped ∧
       (benchmarkOne st k ec dt).timings = st.timings) ∧
    (∀ (items : List (String × Int × Nat)) (u0 : Bool),
       benchmarkAllExit (benchmarkAllLoop items (initSched u0)) ≠ 0 ↔
       (benchmarkAllLoop items (initSched u0)).failed ≠ []) := by
  refine ⟨?_, ?_, ?_, ?_, ?_⟩
  · intro st k dt
    simp [benchmarkOne, EXIT_ALREADY_EXIST]
  · intro st k dt
    simp [benchmarkOne, EXIT_ALREADY_EXIST, EXIT_COMPILE_ERROR, EXIT_BENCH_ERROR]
  · intro st k dt
    cases hu : st.update <;>
      simp [benchmarkOne, EXIT_ALREADY_EXIST, EXIT_COMPILE_ERROR, EXIT_BENCH_ERROR, hu]
  · intro st k ec dt h10 h0 h12
    have e1 : (ec == EXIT_ALREADY_EXIST) = false := by
      simpa [beq_eq_false_iff_ne] using h10
    have e2 : (ec == 0) = false := by
      simpa [beq_eq_false_iff_ne] using h0
    have e3 : (ec == EXIT_BENCH_ERROR) = false := by
      simpa [beq_eq_false_iff_ne] using h12
    cases hd : (decide (EXIT_COMPILE_ERROR ≤ ec) && st.update) <;>
      simp [benchmarkOne, e1, e2, e3, hd]
  · intro items u0
    cases h : (benchmarkAllLoop items (initSched u0)).failed <;>
      simp [benchmarkAllExit, h]

/-- Witness for C3 at a concrete input. -/
theorem scheduler_classification_witness :
    (benchmarkOne (initSched true) "k" 7 3).failed = ["k"] := by
  have h := scheduler_classification.2.2.2.1 (initSched true) "k" 7 3
    (by decide) (by decide) (by decide)
  simpa [initSched] using h.1

/-! ## C2: upload moves the artifact only after a successful response -/

/-- C2: the artifact is renamed from the working path to the uploaded path
only when the POST returned a successful response; an `HTTPError` is treated
as not uploaded, returning with the filesystem unchanged (the artifact stays
at its working path); and an already-existing uploaded path makes the
operation fail before any network activity. -/
theorem upload_moves_only_after_ack :
    ∀ (fn ufn : String) (st : UploadSt) (t : Transport),
      ((upload fn ufn st t).st.fs ≠ st.fs →
         t = .success ∧ (upload fn ufn st t).res = .moved ∧
         (upload fn ufn st t).sent = true) ∧
      (st.uploaded = false → (fn == ufn) = false → st.fs.uploaded = false →
         t = .httpError →
         (upload fn ufn st t).res = .notUploaded ∧ (upload fn ufn st t).st = st) ∧
      (st.fs.uploaded = true → st.uploaded = false → (fn == ufn) = false →
         (upload fn ufn st t).res = .fatal 1 ∧ (upload fn ufn st t).sent = false ∧
         (upload fn ufn st t).st = st) := by
  intro fn ufn st t
  obtain ⟨up, fo, fu⟩ := st
  cases up <;> cases fo <;> cases fu <;> cases t <;>
    cases hq : (fn == ufn) <;> simp [upload, hq]

/-- Witness for C2 at a concrete input. -/
theorem upload_moves_only_after_ack_witness :
    (upload "a" "b" ⟨false, true, false⟩ .httpError).res = .notUploaded ∧
    (upload "a" "b" ⟨false, true, true⟩ .success).res = .fatal 1 := by
  have h1 := upload_moves_only_after_ack "a" "b" ⟨false, true, false⟩ .httpError
  have h2 := upload_moves_only_after_ack "a" "b" ⟨false, true, true⟩ .success
  exact ⟨(h1.2.1 rfl (by decide) rfl rfl).1, (h2.2.2 rfl rfl (by decide)).1⟩

/-! ## C10: a patch disables the upload stage -/

/-- C10: for every invocation that supplies a patch file, the upload operation
is never called (prepare forces the upload setting off even when the
configuration enables it), the artifact is never POSTed nor moved to the
uploaded path, and the output artifact is placed under the patch output
directory. -/
theorem patched_run_never_uploads :
    ∀ (jd b : String) (conf : Conf) (hasLog : Bool) (fs : FS) (w : World),
      (pipelineMain jd b conf true hasLog fs w).uploadCalled = false ∧
      (pipelineMain jd b conf true hasLog fs w).uploadSent = false ∧
      (pipelineMain jd b conf true hasLog fs w).uploaded = false ∧
      (pipelineMain jd b conf true hasLog fs w).fs.uploaded = fs.uploaded ∧
      output_filename jd b true = joinPath (json_patch_dir jd) b := by
  intro jd b conf hasLog fs w
  obtain ⟨cu, cv⟩ := conf
  obtain ⟨fo, fu⟩ := fs
  obtain ⟨wc, wv, wb, wo, wt, wcl⟩ := w
  by_cases hv : wv = 0 <;> by_cases hb : wb = 0 <;>
    cases cu <;> cases fo <;> cases fu <;> cases wc <;>
      simp [pipelineMain, pipelineFinish, output_filename, hv, hb]

/-- Exit status 0 out of the final stage means the cleanup succeeded when it
is enabled, and otherwise that the recorded failure flag was clear. -/
theorem pipelineFinish_exit_zero (conf : Conf) (w : World) (a b c : Bool)
    (fs : FS) (failed : Bool)
    (h : (pipelineFinish conf w a b c fs failed).exitCode = 0) :
    (conf.clean_venv = false → failed = false) ∧
    (conf.clean_venv = true → w.cleanExit = 0) := by
  unfold pipelineFinish at h
  cases hcv : conf.clean_venv
  · cases failed <;> simp_all [EXIT_BENCH_ERROR]
  · by_cases hcl : w.cleanExit = 0 <;> simp_all [EXIT_BENCH_ERROR]

/-! ## C4: exit-code taxonomy -/

/-- C4 as stated is false at a concrete input: the compile-error and
environment-error constants are the same integer 11, and a pipeline run whose
benchmark stage failed (`benchExit = 1`, no output written) but whose
configured venv cleanup succeeded exits with status 0, because
`failed = self.clean_venv()` overwrites the benchmark failure — so zero is
not produced only on full success. -/
theorem exit_codes_claim_counterexample :
    EXIT_COMPILE_ERROR = EXIT_VENV_ERROR ∧
    (pipelineMain "j" "b" ⟨false, true⟩ false false ⟨false, false⟩
        ⟨true, 0, 1, false, .success, 0⟩).exitCode = 0 := by
  exact ⟨rfl, rfl⟩

/-- C4 amended: the four outcome constants are fixed (10, 11, 11, 12); the
compile and environment errors share the integer 11 while the other pairs are
distinct; and exit status 0 requires the prepare guard to pass, the compile
and environment stages to succeed, the benchmark run to succeed whenever venv
cleanup is disabled, and the cleanup to succeed whenever it is enabled (the
cleanup result replaces the run result in the final check). -/
theorem exit_codes_amended :
    EXIT_ALREADY_EXIST = 10 ∧ EXIT_COMPILE_ERROR = 11 ∧ EXIT_VENV_ERROR = 11 ∧
    EXIT_BENCH_ERROR = 12 ∧
    EXIT_ALREADY_EXIST ≠ EXIT_COMPILE_ERROR ∧
    EXIT_ALREADY_EXIST ≠ EXIT_BENCH_ERROR ∧
    EXIT_COMPILE_ERROR ≠ EXIT_BENCH_ERROR ∧
    (∀ (jd b : String) (conf : Conf) (hasPatch hasLog : Bool) (fs : FS) (w : World),
       (pipelineMain jd b conf hasPatch hasLog fs w).exitCode = 0 →
       fs.output = false ∧ (conf.upload = true → fs.uploaded = false) ∧
       w.compileOk = true ∧ w.venvExit = 0 ∧
       (conf.clean_venv = false → w.benchExit = 0) ∧
       (conf.clean_venv = true → w.cleanExit = 0)) := by
  refine ⟨rfl, rfl, rfl, rfl, by decide, by decide, by decide, ?_⟩
  intro jd b conf hasPatch hasLog fs w h
  simp only [pipelineMain] at h
  split at h
  next h0 => exact absurd h (by simp [EXIT_ALREADY_EXIST])
  next h0 =>
    have hfo : fs.output = false := by
      cases hx : fs.output
      · rfl
      · exact absurd (by simp [hx]) h0
    have hfu : conf.upload = true → fs.uploaded = false := by
      intro hcu
      cases hx : fs.uploaded
      · rfl
      · exact absurd (by simp [hcu, hx]) h0
    split at h
    next hc => exact absurd h (by simp [EXIT_COMPILE_ERROR])
    next hc =>
      have hwc : w.compileOk = true := by
        cases hx : w.compileOk
        · exact absurd (by simp [hx]) hc
        · rfl
      split at h
      next hvv => exact absurd h (by simp [EXIT_VENV_ERROR])
      next hvv =>
        have hwv : w.venvExit = 0 := by simpa using hvv
        refine ⟨hfo, hfu, hwc, hwv, ?_⟩
        by_cases hp : (hasPatch && conf.upload) = true
        · rw [if_pos hp] at h
          simp only [Bool.and_false, Bool.if_false_right, Bool.and_eq_true] at h
          have hz := pipelineFinish_exit_zero _ _ _ _ _ _ _ h
          refine ⟨fun hcv => ?_, hz.2⟩
          have := hz.1 hcv
          simpa using this
        · rw [if_neg hp] at h
          split at h
          next hrun =>
            have hwb : w.benchExit = 0 := by
              have := (Bool.and_eq_true _ _).mp hrun
              simpa using this.1
            have hcu : conf.upload = true := ((Bool.and_eq_true _ _).mp hrun).2
            split at h
            next hout =>
              have hfu2 : fs.uploaded = false := hfu hcu
              rcases ht : w.transport with _ | _ <;>
                simp only [upload, ht, output_beq_upload_false, hfu2,
                  Bool.false_eq_true, if_false, hout, if_true] at h
              · have hz := pipelineFinish_exit_zero _ _ _ _ _ _ _ h
                exact ⟨fun hcv => hwb, hz.2⟩
              · have hz := pipelineFinish_exit_zero _ _ _ _ _ _ _ h
                exact ⟨fun hcv => hwb, hz.2⟩
            next hout => exact absurd h (by simp)
          next hrun =>
            have hz := pipelineFinish_exit_zero _ _ _ _ _ _ _ h
            refine ⟨fun hcv => ?_, hz.2⟩
            have := hz.1 hcv
            simpa using this

/-- Witness for C4 (amended) at a concrete input. -/
theorem exit_codes_amended_witness :
    wSucc.compileOk = true ∧ wSucc.venvExit = 0 := by
  have h := exit_codes_amended.2.2.2.2.2.2.2 "j" "b" ⟨false, false⟩ false false
    ⟨false, false⟩ wSucc (by decide)
  exact ⟨h.2.2.1, h.2.2.2.1⟩

/-! ## C1: already-done guard and idempotence -/

/-- C1: when the output artifact path already exists at the prepare stage — or,
with uploading enabled, when the uploaded path exists — the pipeline exits
with the already-done code before the compile, environment and run stages,
deleting the log file created for this run; and after a first invocation in
which every stage succeeded (and whose run sub-invocation wrote the output
file, as a zero exit of `cmd_run` guarantees), a second invocation with
identical inputs exits with the already-done code and runs no stage. -/
theorem prepare_idempotence :
    (∀ (jd b : String) (conf : Conf) (hasPatch hasLog : Bool) (fs : FS) (w : World),
       fs.output = true ∨ (conf.upload = true ∧ fs.uploaded = true) →
       (pipelineMain jd b conf hasPatch hasLog fs w).exitCode = EXIT_ALREADY_EXIST ∧
       (pipelineMain jd b conf hasPatch hasLog fs w).ranCompile = false ∧
       (pipelineMain jd b conf hasPatch hasLog fs w).ranVenv = false ∧
       (pipelineMain jd b conf hasPatch hasLog fs w).ranBench = false ∧
       (pipelineMain jd b conf hasPatch hasLog fs w).logDeleted = hasLog) ∧
    (∀ (jd b : String) (conf : Conf) (hasPatch hasLog : Bool) (fs : FS) (w w2 : World),
       fs.output = false → (conf.upload = true → fs.uploaded = false) →
       w.compileOk = true → w.venvExit = 0 → w.benchExit = 0 →
       w.outputWritten = true → (conf.clean_venv = true → w.cleanExit = 0) →
       (pipelineMain jd b conf hasPatch hasLog fs w).exitCode = 0 ∧
       (pipelineMain jd b conf hasPatch hasLog
           (pipelineMain jd b conf hasPatch hasLog fs w).fs w2).exitCode
         = EXIT_ALREADY_EXIST ∧
       (pipelineMain jd b conf hasPatch hasLog
           (pipelineMain jd b conf hasPatch hasLog fs w).fs w2).ranCompile = false ∧
       (pipelineMain jd b conf hasPatch hasLog
           (pipelineMain jd b conf hasPatch hasLog fs w).fs w2).ranVenv = false ∧
       (pipelineMain jd b conf hasPatch hasLog
           (pipelineMain jd b conf hasPatch hasLog fs w).fs w2).ranBench = false) := by
  constructor
  · intro jd b conf hasPatch hasLog fs w hready
    have h0 : (fs.output || (conf.upload && fs.uploaded)) = true := by
      rcases hready with h | ⟨h1, h2⟩ <;> simp [*]
    simp [pipelineMain, h0]
  · intro jd b conf hasPatch hasLog fs w w2 hfo hfu hwc hwv hwb hwo hcl
    obtain ⟨cu, cv⟩ := conf
    obtain ⟨fo, fu⟩ := fs
    obtain ⟨wc, wv, wb, wo, wt, wcl⟩ := w
    simp only at hfo hfu hwc hwv hwb hwo hcl
    subst hfo hwc hwv hwb hwo
    cases cu <;> cases hasPatch <;> cases wt <;> cases cv <;>
      simp_all [pipelineMain, pipelineFinish, upload, output_beq_upload_false,
        EXIT_ALREADY_EXIST, EXIT_BENCH_ERROR]

/-- Witness for C1 at concrete inputs. -/
theorem prepare_idempotence_witness :
    (pipelineMain "j" "b" ⟨true, true⟩ false true ⟨true, false⟩ wSucc).exitCode
      = EXIT_ALREADY_EXIST ∧
    (pipelineMain "j" "b" ⟨true, true⟩ false true
        (pipelineMain "j" "b" ⟨true, true⟩ false true ⟨false, false⟩ wSucc).fs
        wSucc).exitCode = EXIT_ALREADY_EXIST := by
  have h1 := prepare_idempotence.1 "j" "b" ⟨true, true⟩ false true ⟨true, false⟩ wSucc
    (Or.inl rfl)
  have h2 := prepare_idempotence.2 "j" "b" ⟨true, true⟩ false true ⟨false, false⟩ wSucc
    wSucc rfl (fun _ => rfl) rfl rfl rfl rfl (fun _ => rfl)
  exact ⟨h1.1, h2.2.1⟩

/-! ## C5: partial-failure containment in the execution engine -/

/-- Looking up an entry list whose values are determined by their keys returns
the key's own value whenever some entry carries the key. -/
theorem find?_entry_value (b : Bench) (l : List (Bench × Bool))
    (hval : ∀ p ∈ l, p.2 = p.1.installOk) (hmem : ∃ p ∈ l, p.1 = b) :
    (l.find? (fun p => p.1 == b)).map (fun p => p.2) = some b.installOk := by
  induction l with
  | nil => simp at hmem
  | cons p l ih =>
    by_cases hp : p.1 = b
    · have hpb : (p.1 == b) = true := by simpa using hp
      have := hval p (by simp)
      simp [List.find?, hpb, this, hp]
    · have hpb : (p.1 == b) = false := by simpa using hp
      simp only [List.find?, hpb]
      apply ih
      · intro q hq
        exact hval q (by simp [hq])
      · rcases hmem with ⟨q, hq, hqb⟩
        rcases List.mem_cons.mp hq with h | h
        · exact absurd (h ▸ hqb) hp
        · exact ⟨q, h, hqb⟩

/-- The `benchmarks` dict built by the first loop maps every benchmark of the
request list to its own install outcome. -/
theorem lookupInstall_installPhase (toRun : List Bench) (b : Bench) (hb : b ∈ toRun) :
    lookupInstall (installPhase toRun) b = some b.installOk := by
  apply find?_entry_value
  · intro p hp
    rw [List.mem_reverse] at hp
    rcases List.mem_map.mp hp with ⟨c, _, rfl⟩
    rfl
  · refine ⟨(b, b.installOk), ?_, rfl⟩
    rw [List.mem_reverse]
    exact List.mem_map.mpr ⟨b, hb, rfl⟩

/-- The second loop of the engine appends, for each benchmark in order, either
its suite entry or its error entry, for any dict that reports each
benchmark's own install outcome. -/
theorem foldl_runStep (m : List (Bench × Bool)) (l : List Bench)
    (hl : ∀ b ∈ l, lookupInstall m b = some b.installOk)
    (acc : List String × List (String × String)) :
    l.foldl (runStep m) acc = (acc.1 ++ suiteOf l, acc.2 ++ errorsOf l) := by
  induction l generalizing acc with
  | nil => simp [suiteOf, errorsOf]
  | cons b l ih =>
    have hb := hl b (by simp)
    rw [List.foldl_cons, ih (fun c hc => hl c (by simp [hc]))]
    cases hio : b.installOk <;> rw [hio] at hb
    · simp [runStep, hb, suiteOf, errorsOf, List.filterMap_cons, hio]
    · cases ho : b.outcome <;>
        simp [runStep, hb, suiteOf, errorsOf, List.filterMap_cons, hio, ho]

/-- A segment of all-available, all-successful benchmarks contributes its full
name list to the suite and nothing to the error list. -/
theorem suiteOf_errorsOf_all_ok (l : List Bench)
    (h : ∀ b ∈ l, b.installOk = true ∧ b.outcome = .ok) :
    suiteOf l = l.map Bench.name ∧ errorsOf l = [] := by
  induction l with
  | nil => simp [suiteOf, errorsOf]
  | cons b l ih =>
    have hb := h b (by simp)
    have ihl := ih (fun c hc => h c (by simp [hc]))
    simp only [suiteOf, errorsOf, List.filterMap_cons] at ihl ⊢
    simp [hb.1, hb.2, ihl.1, ihl.2]

/-- C5: the engine's suite and error list are exactly the per-benchmark
classification, in request order; in particular, when exactly one benchmark's
requirement installation fails and every other benchmark runs without
exception, the suite has a result for each of the other benchmarks and the
error list is exactly the failing benchmark's name paired with the
install-failure reason. -/
theorem run_benchmarks_partial_failure :
    (∀ toRun : List Bench,
       run_benchmarks true toRun = some (suiteOf toRun, errorsOf toRun)) ∧
    (∀ (pre post : List Bench) (b0 : Bench),
       b0.installOk = false →
       (∀ b ∈ pre ++ post, b.installOk = true ∧ b.outcome = .ok) →
       run_benchmarks true (pre ++ b0 :: post) =
         some ((pre ++ post).map Bench.name,
               [(b0.name, "Install requirements error")])) := by
  have hmain : ∀ toRun : List Bench,
      run_benchmarks true toRun = some (suiteOf toRun, errorsOf toRun) := by
    intro toRun
    unfold run_benchmarks
    rw [if_pos rfl, foldl_runStep _ _ (fun b hb => lookupInstall_installPhase toRun b hb)]
    simp
  refine ⟨hmain, ?_⟩
  intro pre post b0 h0 hok
  rw [hmain]
  have hpre := suiteOf_errorsOf_all_ok pre (fun b hb => hok b (by simp [hb]))
  have hpost := suiteOf_errorsOf_all_ok post (fun b hb => hok b (by simp [hb]))
  have hs : suiteOf (pre ++ b0 :: post) = (pre ++ post).map Bench.name := by
    have h1 : suiteOf (pre ++ b0 :: post) = suiteOf pre ++ suiteOf (b0 :: post) := by
      simp only [suiteOf, List.filterMap_append]
    have h2 : suiteOf (b0 :: post) = suiteOf post := by
      simp [suiteOf, List.filterMap_cons, h0]
    rw [h1, h2, hpre.1, hpost.1, List.map_append]
  have he : errorsOf (pre ++ b0 :: post) = [(b0.name, "Install requirements error")] := by
    have h1 : errorsOf (pre ++ b0 :: post) = errorsOf pre ++ errorsOf (b0 :: post) := by
      simp only [errorsOf, List.filterMap_append]
    have h2 : errorsOf (b0 :: post) =
        (b0.name, "Install requirements error") :: errorsOf post := by
      simp [errorsOf, List.filterMap_cons, h0]
    rw [h1, h2, hpre.2, hpost.2]
    simp
  rw [hs, he]

/-- Witness for C5 at a concrete input. -/
theorem run_benchmarks_partial_failure_witness :
    run_benchmarks true [⟨"a", true, .ok⟩, ⟨"bad", false, .ok⟩, ⟨"c", true, .ok⟩] =
      some (["a", "c"], [("bad", "Install requirements error")]) := by
  have h := run_benchmarks_partial_failure.2 [⟨"a", true, .ok⟩] [⟨"c", true, .ok⟩]
    ⟨"bad", false, .ok⟩ rfl (by decide)
  simpa using h

/-! ## C6: compatibility fingerprint -/

/-- Sorting is a canonical form: permuted inputs sort to the same list. -/
theorem sortedLines_perm_invariant {l l2 : List String} (h : l.Perm l2) :
    sortedLines l = sortedLines l2 := by
  have hperm := (List.perm_insertionSort (fun a b : String => a ≤ b) l).trans
    (h.trans (List.perm_insertionSort (fun a b : String => a ≤ b) l2).symm)
  exact List.eq_of_perm_of_sorted hperm
    (List.sorted_insertionSort (fun a b : String => a ≤ b) l)
    (List.sorted_insertionSort (fun a b : String => a ≤ b) l2)

/-- The digest input determines the version string: with the requirement lines
fixed, different version strings produce different digest inputs. -/
theorem digest_input_ne {v v2 : String} (r : List String) (h : v ≠ v2) :
    digest_input v r ≠ digest_input v2 r := by
  intro he
  apply h
  have hd := congrArg String.data he
  simp only [digest_input, String.data_append] at hd
  have hdd := List.append_cancel_right hd
  cases v
  cases v2
  exact congrArg String.mk hdd

/-- A slice of length `n` of a string at least `n` long has length `n`. -/
theorem strSlice_length (s : String) (n : Nat) (h : n ≤ s.length) :
    (strSlice s n).length = n := by
  have hs : s.length = s.data.length := rfl
  simp only [strSlice]
  have : (String.mk (s.data.take n)).length = (s.data.take n).length := rfl
  rw [this, List.length_take]
  omega

/-- C6: the claimed appended-sorted behaviour is the code's clear intent but
the code is broken whenever benchmark lock-file lines are present — run.py
never imports `os`, so `get_compatibility_id` raises `NameError` at the
`os.path.exists(lockfile)` guard instead of returning a fingerprint.  In the
reachable no-lock-file case the function returns the 12-character prefix of
the digest of the harness version string concatenated with the sorted global
lines: a result insensitive to the order of the global lines, whose digest
input is injective in the version string (the external digest sees a
different input whenever the version changes), and of length 12 whenever the
digest is at least that long. -/
theorem get_compatibility_id_code_bug :
    (∀ (hexdigest : String → String) (v : String) (g bl : List String),
       get_compatibility_id hexdigest v g (some bl) = .nameError) ∧
    (∀ (hexdigest : String → String) (v v2 : String) (g g2 : List String),
       (g.Perm g2 →
         get_compatibility_id hexdigest v g none
           = get_compatibility_id hexdigest v g2 none) ∧
       (v ≠ v2 →
         digest_input v (sortedLines g) ≠ digest_input v2 (sortedLines g)) ∧
       (12 ≤ (hexdigest (digest_input v (sortedLines g))).length →
         (strSlice (hexdigest (digest_input v (sortedLines g))) 12).length = 12 ∧
         get_compatibility_id hexdigest v g none
           = .ok (strSlice (hexdigest (digest_input v (sortedLines g))) 12))) := by
  refine ⟨fun hexdigest v g bl => rfl, ?_⟩
  intro hexdigest v v2 g g2
  refine ⟨?_, ?_, ?_⟩
  · intro hg
    simp [get_compatibility_id, sortedLines_perm_invariant hg]
  · intro hv
    exact digest_input_ne _ hv
  · intro hlen
    exact ⟨strSlice_length _ _ hlen, rfl⟩

/-- Witness for C6 at concrete inputs: the failing lock-file evaluation and
the reachable-case properties. -/
theorem get_compatibility_id_code_bug_witness :
    get_compatibility_id (fun s => s ++ "000000000000") "0.1.0" ["q", "p"]
        (some ["numpy"]) = .nameError ∧
    get_compatibility_id (fun s => s ++ "000000000000") "0.1.0" ["q", "p"] none =
      get_compatibility_id (fun s => s ++ "000000000000") "0.1.0" ["p", "q"] none ∧
    digest_input "0.1.0" (sortedLines ["q", "p"]) ≠
      digest_input "0.2.0" (sortedLines ["q", "p"]) ∧
    (strSlice (digest_input "0.1.0" (sortedLines ["q", "p"]) ++ "000000000000")
        12).length = 12 := by
  have h := get_compatibility_id_code_bug
  have h2 := h.2 (fun s => s ++ "000000000000") "0.1.0" "0.2.0" ["q", "p"] ["p", "q"]
  refine ⟨h.1 (fun s => s ++ "000000000000") "0.1.0" ["q", "p"] ["numpy"],
    h2.1 (by decide), h2.2.1 (by decide), ?_⟩
  refine (h2.2.2 ?_).1
  rw [String.length_append]
  have h12 : String.length "000000000000" = 12 := rfl
  omega

/-! ## C8: round-trip of persisted results -/

/-- C8: serializing a result built from a non-empty raw trial list, with its
executable/environment metadata filled in, to its persisted record and
reconstructing a `BenchmarkResult` from that record succeeds and yields mean,
min, max and std_dev identical to the original's, with a null std_dev
reconstructed as null; and the original's std_dev is null exactly when it was
built from fewer than 2 trials. -/
theorem result_roundtrip :
    ∀ (α D : Type) (S : Stats α) (n : String) (rs : List α) (d : D)
      (info : ExecInfo D) (now : D),
      rs ≠ [] →
      mkBenchmarkResult none none
          (some ((BenchmarkResult.ofResults (some n) rs d (some info)).data S)) now
        = some (BenchmarkResult.ofJsonData
            ((BenchmarkResult.ofResults (some n) rs d (some info)).data S)) ∧
      (BenchmarkResult.ofJsonData
          ((BenchmarkResult.ofResults (some n) rs d (some info)).data S)).mean S
        = (BenchmarkResult.ofResults (some n) rs d (some info)).mean S ∧
      (BenchmarkResult.ofJsonData
          ((BenchmarkResult.ofResults (some n) rs d (some info)).data S)).min S
        = (BenchmarkResult.ofResults (some n) rs d (some info)).min S ∧
      (BenchmarkResult.ofJsonData
          ((BenchmarkResult.ofResults (some n) rs d (some info)).data S)).max S
        = (BenchmarkResult.ofResults (some n) rs d (some info)).max S ∧
      (BenchmarkResult.ofJsonData
          ((BenchmarkResult.ofResults (some n) rs d (some info)).data S)).std_dev S
        = (BenchmarkResult.ofResults (some n) rs d (some info)).std_dev S ∧
      ((BenchmarkResult.ofResults (some n) rs d (some info)).std_dev S = none ↔
        rs.length < 2) := by
  intro α D S n rs d info now hrs
  have hne : rs.isEmpty = false := by
    cases rs
    · exact absurd rfl hrs
    · rfl
  refine ⟨?_, ?_, ?_, ?_, ?_, ?_⟩
  · simp [mkBenchmarkResult, fromJson, BenchmarkResult.data]
  · simp [BenchmarkResult.mean, BenchmarkResult.data, BenchmarkResult.resultsOf,
      truthyResults, hne]
  · simp [BenchmarkResult.min, BenchmarkResult.data, BenchmarkResult.resultsOf,
      truthyResults, hne]
  · simp [BenchmarkResult.max, BenchmarkResult.data, BenchmarkResult.resultsOf,
      truthyResults, hne]
  · simp [BenchmarkResult.std_dev, BenchmarkResult.data, BenchmarkResult.resultsOf,
      truthyResults, hne]
  · rw [BenchmarkResult.std_dev]
    simp only [BenchmarkResult.resultsOf, truthyResults, hne, Bool.not_false, if_true,
      Option.getD_some]
    by_cases hlen : 1 < rs.length
    · simp [hlen]
      omega
    · simp [hlen]
      omega

/-- Witness for C8 at a concrete input. -/
theorem result_roundtrip_witness :
    (BenchmarkResult.ofResults (some "bm") [(3 : Int), 5] (0 : Int)
        (some wInfo)).std_dev intStats = none ↔ [(3 : Int), 5].length < 2 := by
  have h := result_roundtrip Int Int intStats "bm" [(3 : Int), 5] 0 wInfo 0 (by decide)
  exact h.2.2.2.2.2

/-! ## C9: reconstruction from a minimal record -/

/-- C9 as stated is false at a concrete input: constructing a
`BenchmarkResult` from a record that has the minimal keys but no
`revision_date`, `commitid`, `executable`, `branch`, `project` or
`environment` key does not succeed — the constructor reads those keys
unconditionally (a `KeyError` in Python). -/
theorem fromJson_requires_metadata_keys :
    mkBenchmarkResult none none (some minimalRecord) 0 = none := rfl

/-- C9 amended: constructing a `BenchmarkResult` from a persisted record
succeeds when, in addition to the minimal keys, the `revision_date`,
`commitid`, `executable`, `branch`, `project` and `environment` keys are
present, and then its mean, min, max and std_dev are read back verbatim as
the stored values rather than recomputed. -/
theorem fromJson_reads_back_verbatim :
    ∀ (α D : Type) (S : Stats α) (r0 : JsonRecord α D) (now : D),
      r0.benchmark.isSome = true → r0.result_date.isSome = true →
      r0.revision_date.isSome = true → r0.commitid.isSome = true →
      r0.executable.isSome = true → r0.branch.isSome = true →
      r0.project.isSome = true → r0.environment.isSome = true →
      mkBenchmarkResult none none (some r0) now
        = some (BenchmarkResult.ofJsonData r0) ∧
      (BenchmarkResult.ofJsonData r0).mean S = r0.results_value ∧
      (BenchmarkResult.ofJsonData r0).min S = r0.min ∧
      (BenchmarkResult.ofJsonData r0).max S = r0.max ∧
      (BenchmarkResult.ofJsonData r0).std_dev S = r0.std_dev := by
  intro α D S r0 now h1 h2 h3 h4 h5 h6 h7 h8
  obtain ⟨b1, hb1⟩ := Option.isSome_iff_exists.mp h1
  obtain ⟨b2, hb2⟩ := Option.isSome_iff_exists.mp h2
  obtain ⟨b3, hb3⟩ := Option.isSome_iff_exists.mp h3
  obtain ⟨b4, hb4⟩ := Option.isSome_iff_exists.mp h4
  obtain ⟨b5, hb5⟩ := Option.isSome_iff_exists.mp h5
  obtain ⟨b6, hb6⟩ := Option.isSome_iff_exists.mp h6
  obtain ⟨b7, hb7⟩ := Option.isSome_iff_exists.mp h7
  obtain ⟨b8, hb8⟩ := Option.isSome_iff_exists.mp h8
  refine ⟨?_, ?_, ?_, ?_, ?_⟩
  · simp [mkBenchmarkResult, fromJson, hb1, hb2, hb3, hb4, hb5, hb6, hb7, hb8]
  · simp [BenchmarkResult.mean, BenchmarkResult.data, BenchmarkResult.resultsOf,
      truthyResults]
  · simp [BenchmarkResult.min, BenchmarkResult.data, BenchmarkResult.resultsOf,
      truthyResults]
  · simp [BenchmarkResult.max, BenchmarkResult.data, BenchmarkResult.resultsOf,
      truthyResults]
  · simp [BenchmarkResult.std_dev, BenchmarkResult.data, BenchmarkResult.resultsOf,
      truthyResults]

/-- Witness for C9 (amended) at a concrete input. -/
theorem fromJson_reads_back_verbatim_witness :
    mkBenchmarkResult none none (some fullRecord) 0
      = some (BenchmarkResult.ofJsonData fullRecord) ∧
    (BenchmarkResult.ofJsonData fullRecord).mean intStats = fullRecord.results_value := by
  have h := fromJson_reads_back_verbatim Int Int intStats fullRecord 0
    rfl rfl rfl rfl rfl rfl rfl rfl
  exact ⟨h.1, h.2.1⟩

end OpenmcPerf
